import Mathlib

/-!
Shallow embedding of the quiz web application (`src/app.py`): the User
credential store, the password-hashing pair, the registration and login
handlers, the quiz-question catalog with its seeding route, and the scoring
loop of the `/quiz` POST handler.  Persistent state (the two SQLAlchemy
tables) is embedded as Lean lists kept in storage (insertion / rowid) order;
a committed write appends, a failed commit leaves the list untouched.
-/

namespace QuizApp

/-- A row of the `Quiz` table (`class Quiz(db.Model)` in `app.py`):
integer primary key, question text, the four option strings, and the
correct-answer label (one of "A"/"B"/"C"/"D"). -/
structure Quiz where
  id : Nat
  question : String
  option_a : String
  option_b : String
  option_c : String
  option_d : String
  correct_answer : String
deriving Repr, DecidableEq

/-- `request.form.get(key)` on the submitted quiz form: the first value
bound to the key, or `none` when the key is absent.  The form is embedded as
an association list from question id to submitted label. -/
def form_get (form : List (Nat × String)) (key : Nat) : Option String :=
  (form.find? (fun kv => kv.1 == key)).map (fun kv => kv.2)

/-- The scoring loop of the `/quiz` POST handler (`app.py` lines 155-159):
start at 0 and, for each question, add 1 exactly when the submitted label for
`question_{id}` equals `correct_answer` (string equality, so case-sensitive;
an absent key yields `none` and never matches). -/
def score (questions : List Quiz) (form : List (Nat × String)) : Nat :=
  questions.foldl
    (fun s q => if form_get form q.id == some q.correct_answer then s + 1 else s) 0

/-- The three sample questions inserted by `/add_sample_questions`
(`app.py` lines 122-135); ids 1, 2, 3 are what SQLite's autoincrement
assigns when the table is empty. -/
def sample_questions : List Quiz :=
  [ { id := 1, question := "What is the capital of France?",
      option_a := "Berlin", option_b := "Madrid", option_c := "Paris",
      option_d := "Rome", correct_answer := "C" },
    { id := 2, question := "What is 2 + 2?",
      option_a := "3", option_b := "4", option_c := "5",
      option_d := "6", correct_answer := "B" },
    { id := 3, question := "Which planet is known as the Red Planet?",
      option_a := "Earth", option_b := "Mars", option_c := "Jupiter",
      option_d := "Venus", correct_answer := "B" } ]

/-- The `/add_sample_questions` handler (`app.py` lines 119-144): when the
catalog has zero rows, try to commit the three sample questions — on a
storage failure (`storageOk = false`, the `except` branch) nothing is
committed and the generic error string is returned; when the catalog is
non-empty nothing is written.  Returns the response string and the catalog
after the request. -/
def add_sample_questions (catalog : List Quiz) (storageOk : Bool) :
    String × List Quiz :=
  if catalog.length == 0 then
    if storageOk then
      ("Sample questions added!", catalog ++ sample_questions)
    else
      ("An error occurred while adding sample questions.", catalog)
  else
    ("Sample questions already exist in the database.", catalog)

/-- `Quiz.query.all()` (`app.py` line 151): every row of the catalog in
storage order. -/
def list_all (catalog : List Quiz) : List Quiz := catalog

/-- The `/quiz` POST handler (`app.py` lines 149-162): fetch the question
list once with `Quiz.query.all()`, compute the score over that list, and
render that same list together with the score. -/
def quiz_post (catalog : List Quiz) (form : List (Nat × String)) :
    List Quiz × Nat :=
  let questions := list_all catalog
  (questions, score questions form)

/-- The only route that writes to the `Quiz` table is
`/add_sample_questions`, so a reachable catalog is either still empty or
holds exactly the three sample questions. -/
def reachable_catalog (catalog : List Quiz) : Prop :=
  catalog = [] ∨ catalog = sample_questions

/-- The submitted form restricted to keys that are ids of scored questions. -/
def restrict_answers (questions : List Quiz) (form : List (Nat × String)) :
    List (Nat × String) :=
  form.filter (fun kv => questions.any (fun q => q.id == kv.1))

-- ### Helper lemmas for the scoring loop

theorem foldl_count_aux (p : Quiz → Bool) (l : List Quiz) (n : Nat) :
    l.foldl (fun s q => if p q then s + 1 else s) n = n + l.countP p := by
  induction l generalizing n with
  | nil => simp
  | cons q l ih =>
      by_cases h : p q
      · simp [List.foldl_cons, List.countP_cons, h, ih]
        omega
      · simp [List.foldl_cons, List.countP_cons, h, ih]

theorem score_eq_countP (questions : List Quiz) (form : List (Nat × String)) :
    score questions form =
      questions.countP
        (fun q => form_get form q.id == some q.correct_answer) := by
  unfold score
  rw [foldl_count_aux]
  exact Nat.zero_add _

theorem find?_filter_of_imp (p r : Nat × String → Bool)
    (l : List (Nat × String)) (h : ∀ kv, p kv = true → r kv = true) :
    (l.filter r).find? p = l.find? p := by
  induction l with
  | nil => simp
  | cons kv l ih =>
      by_cases hr : r kv
      · by_cases hp : p kv
        · simp [List.filter_cons, hr, List.find?_cons, hp]
        · simp [List.filter_cons, hr, List.find?_cons, hp, ih]
      · have hp : ¬ p kv = true := fun hpk => hr (h kv hpk)
        simp [List.filter_cons, hr, List.find?_cons, hp, ih]

theorem form_get_restrict (questions : List Quiz)
    (form : List (Nat × String)) (q : Quiz) (hq : q ∈ questions) :
    form_get (restrict_answers questions form) q.id = form_get form q.id := by
  unfold form_get restrict_answers
  rw [find?_filter_of_imp]
  intro kv hkv
  simp only [beq_iff_eq] at hkv
  simp only [List.any_eq_true, beq_iff_eq]
  exact ⟨q, hq, hkv.symm⟩

-- ### Authentication layer

/-- A row of the `User` table (`class User(UserMixin, db.Model)`):
integer primary key, unique username, and the hashed password. -/
structure User where
  id : Nat
  username : String
  password : String
deriving Repr, DecidableEq

/-- Modelled from the spec: werkzeug's `generate_password_hash` (an
external library, not part of this repository) is a one-way salted hash;
the contract the spec states for it is that verification succeeds exactly
on the hashed password.  It is embedded as an injective tagged encoding,
which realises that contract. -/
def generate_password_hash (p : String) : String :=
  "scrypt$" ++ p

/-- Modelled from the spec: werkzeug's `check_password_hash stored given`
verifies `given` against the stored hash, succeeding iff `stored` is the
hash of `given`. -/
def check_password_hash (stored given : String) : Bool :=
  stored == generate_password_hash given

/-- `User.set_password` (`app.py` lines 35-36): store the hash of the
plaintext. -/
def set_password (u : User) (p : String) : User :=
  { u with password := generate_password_hash p }

/-- `User.check_password` (`app.py` lines 38-39): verify a plaintext
against the stored hash. -/
def check_password (u : User) (p : String) : Bool :=
  check_password_hash u.password p

/-- `User.query.filter_by(username=...).first()`: the first row whose
username matches, if any. -/
def find_by_username (store : List User) (u : String) : Option User :=
  store.find? (fun user => user.username == u)

/-- Outcome of a registration attempt, standing for the flashed message:
`success` = "Registration successful!", `duplicateUsername` = "Username
already exists.", `storageFailure` = the generic "An error occurred during
registration. Please try again." of the `except` branch. -/
inductive RegisterOutcome
  | success
  | duplicateUsername
  | storageFailure
deriving Repr, DecidableEq

/-- The row built by `User(username=username)` followed by
`set_password(password)` (`app.py` lines 60-61); the id is what
autoincrement assigns. -/
def new_user (store : List User) (u p : String) : User :=
  set_password { id := store.length + 1, username := u, password := "" } p

/-- The `/register` POST handler (`app.py` lines 49-70): reject a duplicate
username; otherwise build the new user with the hashed password and try to
commit it — a storage failure (`storageOk = false`) is caught and nothing
is committed.  Returns the outcome and the credential store after the
request. -/
def register (store : List User) (u p : String) (storageOk : Bool) :
    RegisterOutcome × List User :=
  match find_by_username store u with
  | some _ => (.duplicateUsername, store)
  | none =>
      if storageOk then (.success, store ++ [new_user store u p])
      else (.storageFailure, store)

/-- The `/login` POST handler (`app.py` lines 77-88): succeed (establish a
session) iff some stored user has the submitted username and the stored
hash verifies the submitted password; both a missing username and a hash
mismatch fail with the same message. -/
def login (store : List User) (u p : String) : Bool :=
  match find_by_username store u with
  | some user => check_password user p
  | none => false

/-- One registration attempt in a history of requests. -/
structure RegisterEvent where
  username : String
  password : String
  storageOk : Bool
deriving Repr, DecidableEq

/-- Run a list of registration attempts left to right from a given store. -/
def exec_events (store : List User) (evs : List RegisterEvent) : List User :=
  evs.foldl (fun s e => (register s e.username e.password e.storageOk).2) store

/-- The credential store after a history of registration attempts starting
from the empty store. -/
def exec_trace (evs : List RegisterEvent) : List User :=
  exec_events [] evs

/-- Some attempt in the history is a registration of `(u, p)` that
succeeded at its point in the history. -/
def registered_in (store : List User) (evs : List RegisterEvent)
    (u p : String) : Prop :=
  ∃ l e r, evs = l ++ e :: r ∧ e.username = u ∧ e.password = p ∧
    (register (exec_events store l) u p e.storageOk).1 = .success

-- ### Helper lemmas for the hashing pair

theorem generate_password_hash_inj {p q : String}
    (h : generate_password_hash p = generate_password_hash q) : p = q := by
  unfold generate_password_hash at h
  have hd := congrArg String.data h
  simp [String.data_append] at hd
  exact String.ext hd

theorem check_password_hash_iff (p q : String) :
    check_password_hash (generate_password_hash p) q = true ↔ p = q := by
  unfold check_password_hash
  rw [beq_iff_eq]
  exact ⟨fun h => generate_password_hash_inj h, fun h => by rw [h]⟩

-- ### Helper lemmas for register / login

theorem register_dup_of_find {store : List User} {u : String} {w : User}
    (hfind : find_by_username store u = some w) (p : String) (ok : Bool) :
    register store u p ok = (.duplicateUsername, store) := by
  unfold register
  rw [hfind]

theorem register_fail_of_find_none {store : List User} {u : String}
    (hfind : find_by_username store u = none) (p : String) :
    register store u p false = (.storageFailure, store) := by
  unfold register
  rw [hfind]
  rfl

theorem register_ok_of_find_none {store : List User} {u : String}
    (hfind : find_by_username store u = none) (p : String) :
    register store u p true = (.success, store ++ [new_user store u p]) := by
  unfold register
  rw [hfind]
  rfl

theorem register_success_eq {store : List User} {u p : String} {ok : Bool}
    (h : (register store u p ok).1 = .success) :
    find_by_username store u = none ∧ ok = true ∧
    (register store u p ok).2 = store ++ [new_user store u p] := by
  cases hfind : find_by_username store u with
  | some w => rw [register_dup_of_find hfind] at h; exact absurd h (by simp)
  | none =>
      cases ok with
      | false => rw [register_fail_of_find_none hfind] at h
                 exact absurd h (by simp)
      | true => exact ⟨rfl, rfl, by rw [register_ok_of_find_none hfind]⟩

theorem login_eq_false_of_find_none {store : List User} {u : String}
    (hfind : find_by_username store u = none) (p : String) :
    login store u p = false := by
  unfold login
  rw [hfind]

theorem find_by_username_append (store tail : List User) (u : String) :
    find_by_username (store ++ tail) u =
      (find_by_username store u).or (find_by_username tail u) := by
  unfold find_by_username
  exact List.find?_append

theorem login_append_self {store : List User} {u : String}
    (hfind : find_by_username store u = none) (w : User)
    (hw : w.username = u) (p : String) :
    login (store ++ [w]) u p = check_password w p := by
  unfold login
  rw [find_by_username_append, hfind, Option.none_or]
  have : find_by_username [w] u = some w := by
    unfold find_by_username
    simp [List.find?_cons, hw]
  rw [this]

theorem login_append_other {u : String} (store : List User) (w : User)
    (hw : w.username ≠ u) (p : String) :
    login (store ++ [w]) u p = login store u p := by
  unfold login
  rw [find_by_username_append]
  have : find_by_username [w] u = none := by
    unfold find_by_username
    simp [List.find?_cons, hw]
  rw [this, Option.or_none]

theorem login_register_step (store : List User) (e : RegisterEvent)
    (u p : String) :
    login (register store e.username e.password e.storageOk).2 u p = true ↔
      (login store u p = true ∨
        (e.username = u ∧ e.password = p ∧
          (register store u p e.storageOk).1 = .success)) := by
  cases hfind : find_by_username store e.username with
  | some w =>
      rw [register_dup_of_find hfind]
      constructor
      · exact Or.inl
      · rintro (h | ⟨h1, h2, h3⟩)
        · exact h
        · subst h1
          rw [register_dup_of_find hfind] at h3
          exact absurd h3 (by simp)
  | none =>
      cases hok : e.storageOk with
      | false =>
          rw [register_fail_of_find_none hfind]
          constructor
          · exact Or.inl
          · rintro (h | ⟨h1, h2, h3⟩)
            · exact h
            · subst h1
              rw [register_fail_of_find_none hfind] at h3
              exact absurd h3 (by simp)
      | true =>
          rw [register_ok_of_find_none hfind]
          by_cases hu : e.username = u
          · subst hu
            rw [login_append_self hfind _ rfl]
            have hpw : check_password (new_user store e.username e.password)
                p = true ↔ e.password = p := by
              unfold check_password new_user set_password
              exact check_password_hash_iff e.password p
            rw [hpw, login_eq_false_of_find_none hfind p]
            constructor
            · intro h
              refine Or.inr ⟨rfl, h, ?_⟩
              rw [register_ok_of_find_none hfind]
            · rintro (h | ⟨h1, h2, h3⟩)
              · exact absurd h (by simp)
              · exact h2
          · rw [login_append_other store _ hu]
            constructor
            · exact Or.inl
            · rintro (h | ⟨h1, h2, h3⟩)
              · exact h
              · exact absurd h1 hu

theorem exec_events_cons (store : List User) (e : RegisterEvent)
    (evs : List RegisterEvent) :
    exec_events store (e :: evs) =
      exec_events (register store e.username e.password e.storageOk).2 evs :=
  rfl

theorem registered_in_cons (store : List User) (e : RegisterEvent)
    (evs : List RegisterEvent) (u p : String) :
    registered_in store (e :: evs) u p ↔
      ((e.username = u ∧ e.password = p ∧
          (register store u p e.storageOk).1 = .success) ∨
        registered_in (register store e.username e.password e.storageOk).2
          evs u p) := by
  constructor
  · rintro ⟨l, ev, r, heq, h1, h2, h3⟩
    cases l with
    | nil =>
        simp only [List.nil_append, List.cons.injEq] at heq
        obtain ⟨he, hr⟩ := heq
        subst he
        subst hr
        exact Or.inl ⟨h1, h2, h3⟩
    | cons e' l' =>
        simp only [List.cons_append, List.cons.injEq] at heq
        obtain ⟨he, hevs⟩ := heq
        subst he
        exact Or.inr ⟨l', ev, r, hevs, h1, h2, h3⟩
  · rintro (⟨h1, h2, h3⟩ | ⟨l, ev, r, heq, h1, h2, h3⟩)
    · exact ⟨[], e, evs, rfl, h1, h2, h3⟩
    · exact ⟨e :: l, ev, r, by rw [heq]; rfl, h1, h2, h3⟩

theorem login_exec_events (u p : String) (evs : List RegisterEvent) :
    ∀ store, (login (exec_events store evs) u p = true ↔
      (login store u p = true ∨ registered_in store evs u p)) := by
  induction evs with
  | nil =>
      intro store
      have hreg : ¬ registered_in store [] u p := by
        rintro ⟨l, ev, r, heq, -, -, -⟩
        have hne : l ++ ev :: r ≠ [] := by simp
        exact hne heq.symm
      simp only [exec_events, List.foldl_nil]
      exact ⟨Or.inl, fun h => h.elim id fun h => absurd h hreg⟩
  | cons e evs ih =>
      intro store
      rw [exec_events_cons, ih, login_register_step, registered_in_cons]
      tauto

/-- C1: `score` returns exactly the number of questions whose submitted
label is an exact (string, hence case-sensitive) match of the question's
`correct_answer`; a question whose id is absent from the form has
`form_get = none`, never matches `some correct_answer`, and so counts as
incorrect without any error; the result is at most the number of
questions (and, being a `Nat`, at least 0). -/
theorem score_counts_exact_matches (questions : List Quiz)
    (form : List (Nat × String)) :
    score questions form =
      questions.countP
        (fun q => form_get form q.id == some q.correct_answer) ∧
    score questions form ≤ questions.length := by
  refine ⟨score_eq_countP questions form, ?_⟩
  rw [score_eq_countP]
  exact List.countP_le_length _

/-- C10: form entries whose key is not the id of any scored question have
no effect: the score over the full form equals the score over the form
restricted to keys occurring among the questions' ids. -/
theorem score_ignores_foreign_keys (questions : List Quiz)
    (form : List (Nat × String)) :
    score questions form =
      score questions (restrict_answers questions form) := by
  rw [score_eq_countP, score_eq_countP]
  refine (List.countP_congr fun q hq => ?_).symm
  rw [form_get_restrict questions form q hq]

/-- C8: with the catalog seeded with the three sample questions (capital
of France, correct "C"; 2 + 2, correct "B"; Red Planet, correct "B"),
submitting answers 1 ↦ "C", 2 ↦ "B", 3 ↦ "B" scores 3 and submitting
1 ↦ "A", 2 ↦ "A", 3 ↦ "A" scores 0. -/
theorem seeded_quiz_scores :
    score (add_sample_questions [] true).2 [(1, "C"), (2, "B"), (3, "B")] = 3 ∧
    score (add_sample_questions [] true).2 [(1, "A"), (2, "A"), (3, "A")] = 0 := by
  constructor <;> rfl

/-- C5: `add_sample_questions` (the seeding route) writes only when the
catalog has zero rows and is a no-op on a non-empty catalog; consequently
running it twice from an empty catalog leaves exactly 3 questions, the
second call changing nothing. -/
theorem seed_if_empty_spec :
    (∀ catalog ok, catalog ≠ [] →
      add_sample_questions catalog ok =
        ("Sample questions already exist in the database.", catalog)) ∧
    (add_sample_questions (add_sample_questions [] true).2 true).2.length = 3 ∧
    (add_sample_questions (add_sample_questions [] true).2 true).2 =
      (add_sample_questions [] true).2 := by
  refine ⟨?_, by rfl, by rfl⟩
  intro catalog ok h
  cases catalog with
  | nil => exact absurd rfl h
  | cons q rest => simp [add_sample_questions]

/-- Witness for C5: the seeded three-question catalog is non-empty, and
re-running the seeding route on it changes nothing. -/
theorem seed_if_empty_spec_witness :
    add_sample_questions sample_questions true =
      ("Sample questions already exist in the database.", sample_questions) :=
  seed_if_empty_spec.1 sample_questions true (by decide)

/-- C6: `Quiz.query.all()` returns every question of the catalog and, on
every catalog reachable in this application (only the seeding route writes
to the table, with autoincrement ids 1, 2, 3), the returned sequence is
sorted by id ascending; the `/quiz` POST handler fetches this sequence once
and uses that same sequence both for rendering and for scoring. -/
theorem list_all_ordered_and_shared (catalog : List Quiz)
    (h : reachable_catalog catalog) :
    (∀ q, q ∈ list_all catalog ↔ q ∈ catalog) ∧
    List.Pairwise (fun a b => a.id < b.id) (list_all catalog) ∧
    (∀ form, quiz_post catalog form =
      (list_all catalog, score (list_all catalog) form)) := by
  refine ⟨fun q => Iff.rfl, ?_, fun form => rfl⟩
  rcases h with h | h <;> subst h
  · simp [list_all]
  · decide

/-- Witness for C6: the seeded catalog is reachable and its `list_all`
sequence is sorted by id ascending. -/
theorem list_all_ordered_and_shared_witness :
    List.Pairwise (fun a b => a.id < b.id) (list_all sample_questions) :=
  (list_all_ordered_and_shared sample_questions (Or.inr rfl)).2.1

/-- C2: starting from an empty credential store, `login u p` succeeds after
a history of registration attempts iff some attempt in that history was a
`register u p` that succeeded at its point in the history (no
password-change operation exists in the application, so "no password change
occurred since" holds of every history); moreover `login` fails both when
no stored user has the username and when the stored hash does not verify
the submitted password. -/
theorem login_iff_registered (u p : String) (evs : List RegisterEvent) :
    (login (exec_trace evs) u p = true ↔ registered_in [] evs u p) ∧
    (∀ store, find_by_username store u = none → login store u p = false) ∧
    (∀ store user, find_by_username store u = some user →
      check_password user p = false → login store u p = false) := by
  refine ⟨?_, ?_, ?_⟩
  · have h := login_exec_events u p evs []
    have h0 : login [] u p = false := login_eq_false_of_find_none (by rfl) p
    rw [exec_trace, h, h0]
    simp
  · exact fun store hfind => login_eq_false_of_find_none hfind p
  · intro store user hfind hchk
    unfold login
    rw [hfind]
    exact hchk

/-- Witness for C2: registering "alice" with "pw1" makes that login
succeed; logging in against the empty store fails; a wrong password
against the stored hash fails. -/
theorem login_iff_registered_witness :
    login (exec_trace [⟨"alice", "pw1", true⟩]) "alice" "pw1" = true ∧
    login [] "alice" "pw1" = false ∧
    login [⟨1, "alice", generate_password_hash "pw1"⟩] "alice" "pw2" = false := by
  refine ⟨?_, ?_, ?_⟩
  · exact (login_iff_registered "alice" "pw1" [⟨"alice", "pw1", true⟩]).1.mpr
      ⟨[], ⟨"alice", "pw1", true⟩, [], rfl, rfl, rfl, by decide⟩
  · exact (login_iff_registered "alice" "pw1" []).2.1 [] rfl
  · exact (login_iff_registered "alice" "pw2" []).2.2
      [⟨1, "alice", generate_password_hash "pw1"⟩]
      ⟨1, "alice", generate_password_hash "pw1"⟩ (by decide) (by decide)

/-- C3: round-trip of the hashing pair `set_password` / `check_password`:
verifying the password that was set succeeds, and verifying any other
password fails. -/
theorem password_hash_roundtrip (u0 : User) (p q : String) (h : q ≠ p) :
    check_password (set_password u0 p) p = true ∧
    check_password (set_password u0 p) q = false := by
  constructor
  · exact (check_password_hash_iff p p).mpr rfl
  · show check_password_hash (generate_password_hash p) q = false
    cases hb : check_password_hash (generate_password_hash p) q
    · rfl
    · exact absurd ((check_password_hash_iff p q).mp hb).symm h

/-- Witness for C3: hashing "pw1" verifies "pw1" and rejects "pw2". -/
theorem password_hash_roundtrip_witness :
    check_password (set_password ⟨1, "alice", ""⟩ "pw1") "pw1" = true ∧
    check_password (set_password ⟨1, "alice", ""⟩ "pw1") "pw2" = false :=
  password_hash_roundtrip ⟨1, "alice", ""⟩ "pw1" "pw2" (by decide)

/-- C4: when a user with the requested username already exists,
registration fails with the duplicate-username outcome and the store is
unchanged, for any password; in particular a second registration of a
username that was just registered successfully fails that way. -/
theorem register_duplicate_spec :
    (∀ store u p ok, (∃ user ∈ store, user.username = u) →
      register store u p ok = (.duplicateUsername, store)) ∧
    (∀ store u p q ok, (register store u p true).1 = .success →
      register (register store u p true).2 u q ok =
        (.duplicateUsername, (register store u p true).2)) := by
  have hdup : ∀ store u p ok, (∃ user ∈ store, user.username = u) →
      register store u p ok = (.duplicateUsername, store) := by
    rintro store u p ok ⟨user, hmem, huser⟩
    have hsome : (find_by_username store u).isSome := by
      unfold find_by_username
      rw [List.find?_isSome]
      exact ⟨user, hmem, by simp [huser]⟩
    obtain ⟨w, hw⟩ := Option.isSome_iff_exists.mp hsome
    exact register_dup_of_find hw p ok
  refine ⟨hdup, ?_⟩
  intro store u p q ok hs
  obtain ⟨hfind, -, h2⟩ := register_success_eq hs
  rw [h2]
  exact hdup _ u q ok ⟨new_user store u p, by simp, rfl⟩

/-- Witness for C4: with "alice" already stored, registering "alice" again
fails with the duplicate outcome and leaves the store unchanged. -/
theorem register_duplicate_spec_witness :
    register [⟨1, "alice", generate_password_hash "pw1"⟩] "alice" "pw2" true =
      (.duplicateUsername, [⟨1, "alice", generate_password_hash "pw1"⟩]) :=
  register_duplicate_spec.1 [⟨1, "alice", generate_password_hash "pw1"⟩]
    "alice" "pw2" true
    ⟨⟨1, "alice", generate_password_hash "pw1"⟩, by simp, rfl⟩

/-- C7: when the persistence layer fails during a registration write (the
username was free, so the write was attempted) or during the seeding write
(the catalog was empty), the failure is surfaced as the generic retryable
outcome and the store after the request equals the store before it —
nothing partial is committed. -/
theorem storage_failure_atomic :
    (∀ store u p, find_by_username store u = none →
      register store u p false = (.storageFailure, store)) ∧
    (∀ catalog : List Quiz, catalog = [] →
      add_sample_questions catalog false =
        ("An error occurred while adding sample questions.", catalog)) := by
  refine ⟨fun store u p hfind => register_fail_of_find_none hfind p, ?_⟩
  intro catalog h
  subst h
  rfl

/-- Witness for C7: a failed commit of a fresh registration, and a failed
commit of the seeding write, both leave the empty store empty. -/
theorem storage_failure_atomic_witness :
    register [] "alice" "pw1" false = (.storageFailure, []) ∧
    add_sample_questions [] false =
      ("An error occurred while adding sample questions.", []) :=
  ⟨storage_failure_atomic.1 [] "alice" "pw1" rfl,
   storage_failure_atomic.2 [] rfl⟩

/-- C9: a successful registration appends exactly one new row — the new
user, carrying the hashed password — and leaves every pre-existing row of
the credential store unchanged (the new store is the old store with one
row appended). -/
theorem register_adds_one_row (store : List User) (u p : String)
    (h : (register store u p true).1 = .success) :
    ∃ nu, (register store u p true).2 = store ++ [nu] ∧
      nu.username = u ∧ nu.password = generate_password_hash p := by
  obtain ⟨-, -, h2⟩ := register_success_eq h
  exact ⟨new_user store u p, h2, rfl, rfl⟩

/-- Witness for C9: registering "bob" in the empty store appends one row
with username "bob" and the hash of "pw". -/
theorem register_adds_one_row_witness :
    ∃ nu, (register [] "bob" "pw" true).2 = [] ++ [nu] ∧
      nu.username = "bob" ∧ nu.password = generate_password_hash "pw" :=
  register_adds_one_row [] "bob" "pw" rfl

end QuizApp
